import Mathlib

/-!
Verification of the drf-commons relation-write and bulk-operation engine.

This file is a shallow embedding of the relevant Python code:

* `drf_commons/serializers/fields/mixins/inference.py` — relation-kind
  inference and relation-write resolution;
* `drf_commons/serializers/fields/mixins/conversion.py` — input conversion
  (id / slug / nested handling);
* `drf_commons/serializers/fields/mixins/relations.py` — root-first relation
  application and deferred-serializer saving;
* `drf_commons/serializers/fields/mixins/deferred.py` — deferred operations;
* `drf_commons/serializers/base.py` — `BulkUpdateListSerializer.update`;
* `drf_commons/views/mixins/crud.py` — `UpdateModelMixin._resolve_bulk_update_instances`;
* `drf_commons/views/mixins/bulk.py` — bulk update / bulk delete endpoints.

Python dictionaries are modelled as association lists, model instances as
records of attribute lists, and the database as explicit list-valued state
threaded through the functions that the Python code lets the ORM mutate.
-/

namespace DrfCommons

/-- Scalar and container values appearing in request payloads and model
attributes.  `deferredV` stands for a `DeferredRelatedOperation` instance
occurring inside validated data; `listV` collapses Python lists and tuples. -/
inductive Value where
  | nullV
  | intV (n : Int)
  | strV (s : String)
  | deferredV
  | listV (vs : List Value)
deriving Repr

mutual
/-- Decidable equality for payload values (written by hand because the
derive handler does not support the nested list constructor). -/
def valueDecEq : (a b : Value) → Decidable (a = b)
  | .nullV, .nullV => .isTrue rfl
  | .nullV, .intV _ => .isFalse (fun h => Value.noConfusion h)
  | .nullV, .strV _ => .isFalse (fun h => Value.noConfusion h)
  | .nullV, .deferredV => .isFalse (fun h => Value.noConfusion h)
  | .nullV, .listV _ => .isFalse (fun h => Value.noConfusion h)
  | .intV _, .nullV => .isFalse (fun h => Value.noConfusion h)
  | .intV n, .intV m =>
    match decEq n m with
    | .isTrue h => .isTrue (h ▸ rfl)
    | .isFalse h => .isFalse (fun hc => h (Value.intV.inj hc))
  | .intV _, .strV _ => .isFalse (fun h => Value.noConfusion h)
  | .intV _, .deferredV => .isFalse (fun h => Value.noConfusion h)
  | .intV _, .listV _ => .isFalse (fun h => Value.noConfusion h)
  | .strV _, .nullV => .isFalse (fun h => Value.noConfusion h)
  | .strV _, .intV _ => .isFalse (fun h => Value.noConfusion h)
  | .strV s, .strV t =>
    match decEq s t with
    | .isTrue h => .isTrue (h ▸ rfl)
    | .isFalse h => .isFalse (fun hc => h (Value.strV.inj hc))
  | .strV _, .deferredV => .isFalse (fun h => Value.noConfusion h)
  | .strV _, .listV _ => .isFalse (fun h => Value.noConfusion h)
  | .deferredV, .nullV => .isFalse (fun h => Value.noConfusion h)
  | .deferredV, .intV _ => .isFalse (fun h => Value.noConfusion h)
  | .deferredV, .strV _ => .isFalse (fun h => Value.noConfusion h)
  | .deferredV, .deferredV => .isTrue rfl
  | .deferredV, .listV _ => .isFalse (fun h => Value.noConfusion h)
  | .listV _, .nullV => .isFalse (fun h => Value.noConfusion h)
  | .listV _, .intV _ => .isFalse (fun h => Value.noConfusion h)
  | .listV _, .strV _ => .isFalse (fun h => Value.noConfusion h)
  | .listV _, .deferredV => .isFalse (fun h => Value.noConfusion h)
  | .listV xs, .listV ys =>
    match valueListDecEq xs ys with
    | .isTrue h => .isTrue (h ▸ rfl)
    | .isFalse h => .isFalse (fun hc => h (Value.listV.inj hc))

/-- Decidable equality for lists of payload values. -/
def valueListDecEq : (xs ys : List Value) → Decidable (xs = ys)
  | [], [] => .isTrue rfl
  | [], _ :: _ => .isFalse (fun h => List.noConfusion h)
  | _ :: _, [] => .isFalse (fun h => List.noConfusion h)
  | x :: xs, y :: ys =>
    match valueDecEq x y, valueListDecEq xs ys with
    | .isTrue h1, .isTrue h2 => .isTrue (h1 ▸ h2 ▸ rfl)
    | .isFalse h1, _ => .isFalse (fun hc => h1 (List.cons.inj hc).1)
    | _, .isFalse h2 => .isFalse (fun hc => h2 (List.cons.inj hc).2)
end

instance : DecidableEq Value := valueDecEq

/-- Python `str()` of a payload value, as used by the id-normalisation code
(`str(row_id)`, `str(obj.pk)`).  Only the scalar cases are exercised by ids. -/
def pyStr : Value → String
  | .nullV => "None"
  | .intV n => toString n
  | .strV s => s
  | .deferredV => "<deferred>"
  | .listV _ => "<list>"

/-- Python truthiness of a payload value (used for `if lookup_value and ...`). -/
def pyTruthy : Value → Bool
  | .nullV => false
  | .intV n => n != 0
  | .strV s => s != ""
  | .deferredV => true
  | .listV vs => !vs.isEmpty

mutual
/-- Embeds `BulkUpdateListSerializer._contains_deferred_related_operation`
and the identical `RelatedFieldRelationWriteMixin.contains_deferred_related`:
true when the value is a deferred operation or a list/tuple containing one. -/
def contains_deferred_related_operation : Value → Bool
  | .deferredV => true
  | .listV vs => contains_deferred_list vs
  | _ => false

/-- Helper of `contains_deferred_related_operation` for list contents. -/
def contains_deferred_list : List Value → Bool
  | [] => false
  | v :: vs => contains_deferred_related_operation v || contains_deferred_list vs
end

/-- Python dictionaries with string keys, as association lists. -/
abbrev RowData := List (String × Value)

/-- Python `d.get(k)`: first binding of `k`, if any. -/
def dictGet (d : RowData) (k : String) : Option Value :=
  (d.find? (fun kv => kv.1 = k)).map (fun kv => kv.2)

/-- Python `k in d`. -/
def dictHasKey (d : RowData) (k : String) : Bool :=
  d.any (fun kv => kv.1 = k)

/-- Python `d[k] = v`: overwrite the binding of `k` or append it. -/
def dictSet (d : RowData) (k : String) (v : Value) : RowData :=
  if dictHasKey d k then d.map (fun kv => if kv.1 = k then (k, v) else kv)
  else d ++ [(k, v)]

/-! ## Relation classifier (`inference.py`) -/

/-- Metadata of a Django model relationship descriptor, as read by
`_infer_relation_kind` through `getattr(model_field, ..., False)`.
`owning_field_name` is `model_field.field.name`, the name of the concrete
foreign key owning an auto-created reverse descriptor. -/
structure ModelFieldMeta where
  one_to_many : Bool := false
  many_to_many : Bool := false
  many_to_one : Bool := false
  one_to_one : Bool := false
  auto_created : Bool := false
  owning_field_name : String := ""
deriving Repr, DecidableEq

/-- Embeds `RelatedFieldInferenceMixin._infer_relation_kind`: classify a
relationship descriptor into a relation kind and an optional inferred child
link field, following the source if-chain order. -/
def infer_relation_kind (f : ModelFieldMeta) : String × Option String :=
  if f.one_to_many ∧ f.auto_created then
    ("reverse_fk", some f.owning_field_name)
  else if f.many_to_many ∧ f.auto_created then
    ("reverse_m2m", none)
  else if f.many_to_one ∨ f.one_to_one then
    ("fk", none)
  else if f.many_to_many then
    ("m2m", none)
  else
    ("generic", none)

/-- Embeds `RelatedFieldInferenceMixin._default_write_order`. -/
def default_write_order (relation_kind : String) : String :=
  if relation_kind = "reverse_fk" ∨ relation_kind = "reverse_m2m" then "root_first"
  else "dependency_first"

/-- The `relation_write` override dictionary with the defaults that
`_resolve_relation_write` supplies through `.get`.  A `child_link_field`
of `some ""` models an explicitly configured empty string (falsy in Python). -/
structure RelationWriteOverrides where
  relation_kind : String := "auto"
  write_order : String := "auto"
  child_link_field : Option String := none
  sync_mode : String := "append"
deriving Repr, DecidableEq

/-- The resolved relation-write configuration cached on the field. -/
structure RelationWriteConfig where
  relation_kind : String
  write_order : String
  child_link_field : Option String
  sync_mode : String
deriving Repr, DecidableEq

/-- Python truthiness of the optional `child_link_field` override
(`if child_link_override:`). -/
def childLinkTruthy : Option String → Bool
  | none => false
  | some s => s ≠ ""

/-- Embeds `RelatedFieldInferenceMixin._resolve_relation_write` after the
model-field lookup: `modelField = none` models a missing serializer model, a
dotted source, or `FieldDoesNotExist`, all of which leave the inferred kind
at `generic`. -/
def resolve_relation_write (rw : RelationWriteOverrides)
    (modelField : Option ModelFieldMeta) : RelationWriteConfig :=
  let inferred := match modelField with
    | some f => infer_relation_kind f
    | none => ("generic", none)
  let kind := if rw.relation_kind ≠ "auto" then rw.relation_kind else inferred.1
  let childLink := if childLinkTruthy rw.child_link_field then rw.child_link_field
    else inferred.2
  let order := if rw.write_order ≠ "auto" then rw.write_order
    else default_write_order kind
  { relation_kind := kind
    write_order := order
    child_link_field := childLink
    sync_mode := rw.sync_mode }

/-! ## Input conversion (`conversion.py`) -/

/-- A persisted model instance: primary key plus attribute dictionary. -/
structure Inst where
  pk : Nat
  attrs : RowData
deriving Repr, DecidableEq

/-- Attribute access on an instance; `pk` and `id` alias the primary key as
in the Django ORM. -/
def instAttr (i : Inst) (name : String) : Option Value :=
  if name = "pk" ∨ name = "id" then some (.intV i.pk) else dictGet i.attrs name

/-- Column-type metadata of the target model, as far as the embedded lookups
need it: which columns are integer-typed (Django coerces lookup values for
them and raises `ValueError` on failure) and whether the model class has a
`slug` attribute (`hasattr(self.queryset.model, "slug")`). -/
structure ModelInfo where
  intFields : List String := ["pk", "id"]
  hasSlugAttr : Bool := false
deriving Repr, DecidableEq

/-- Embeds `RelatedFieldConversionMixin._is_numeric_string`
(`value.isdigit()`): nonempty and all decimal digits. -/
def is_numeric_string (v : String) : Bool :=
  !v.data.isEmpty && v.data.all (fun c => c.isDigit)

/-- Python `int(s)` on a decimal digit string (the only case the conversion
code reaches it, guarded by `is_numeric_string`). -/
def strToNat (s : String) : Nat :=
  s.data.foldl (fun acc c => acc * 10 + (c.toNat - 48)) 0

/-- Python `type(data).__name__` for the values this embedding covers. -/
def pyTypeName : Value → String
  | .nullV => "NoneType"
  | .intV _ => "int"
  | .strV _ => "str"
  | .deferredV => "DeferredRelatedOperation"
  | .listV _ => "list"

/-- Django lookup-value coercion for a column: integer columns coerce
numeric strings and reject (raise `ValueError`, modelled as `none`) anything
non-numeric; string columns render scalars as text. -/
def coerceForColumn (mi : ModelInfo) (field : String) (data : Value) :
    Option Value :=
  if field ∈ mi.intFields then
    match data with
    | .intV n => some (.intV n)
    | .strV s =>
      if is_numeric_string s then some (.intV (strToNat s)) else none
    | _ => none
  else
    match data with
    | .intV n => some (.strV (toString n))
    | .strV s => some (.strV s)
    | _ => none

/-- Django `queryset.get(field=data)`: `none` models a `ValueError` or
`TypeError` while coercing the lookup value, `some none` models
`DoesNotExist`, and `some (some i)` a successful (first-match) lookup. -/
def qs_get (mi : ModelInfo) (qs : List Inst) (field : String) (data : Value) :
    Option (Option Inst) :=
  match coerceForColumn mi field data with
  | none => none
  | some v => some (qs.find? (fun i => instAttr i field == some v))

/-- Field-level validation errors raised through `self.fail` or
`serializers.ValidationError` in `conversion.py`. -/
inductive FieldErr where
  | nullNotAllowed
  | invalid
  | does_not_exist (pk_value : Value)
  | incorrect_type (data_type : String)
  | nestedInvalid
  | childLinkFieldRequired
  | unsupported
deriving Repr, DecidableEq

/-- Outcome of a Python call: success, a DRF `ValidationError` (which the
string-resolution fallback catches), or a non-`ValidationError` exception
propagating uncaught. -/
inductive PyOutcome (α : Type) where
  | ok (a : α)
  | validationError (e : FieldErr)
  | uncaught
deriving Repr, DecidableEq

/-- Embeds `RelatedFieldConversionMixin._handle_id_input`: look up by the
configured `lookup_field`, turning `DoesNotExist` into `does_not_exist` and
`ValueError`/`TypeError` into `incorrect_type`. -/
def handle_id_input (lookup_field : String) (mi : ModelInfo) (qs : List Inst)
    (data : Value) : PyOutcome Inst :=
  match qs_get mi qs lookup_field data with
  | none => .validationError (.incorrect_type (pyTypeName data))
  | some none => .validationError (.does_not_exist data)
  | some (some i) => .ok i

/-- Embeds `RelatedFieldConversionMixin._handle_slug_input`: the lookup
attribute is `"slug"` when the model has one, else `"name"` — the configured
`slug_lookup_field` is not consulted.  Only `DoesNotExist` is caught. -/
def handle_slug_input (mi : ModelInfo) (qs : List Inst) (data : String) :
    PyOutcome Inst :=
  let slug_field := if mi.hasSlugAttr then "slug" else "name"
  match qs_get mi qs slug_field (.strV data) with
  | none => .uncaught
  | some none => .validationError (.does_not_exist (.strV data))
  | some (some i) => .ok i

/-- Embeds `RelatedFieldConversionMixin._handle_string_id_or_slug_input`
together with `_get_string_resolution_handlers`: numeric-looking strings try
the id handler first and fall back to the slug handler, other strings the
reverse; when both attempts raise `ValidationError`, the first attempt's
error is re-raised. -/
def handle_string_id_or_slug_input (lookup_field : String) (mi : ModelInfo)
    (qs : List Inst) (data : String) : PyOutcome Inst :=
  let runFirst :=
    if is_numeric_string data then handle_id_input lookup_field mi qs (.strV data)
    else handle_slug_input mi qs data
  let runSecond :=
    if is_numeric_string data then handle_slug_input mi qs data
    else handle_id_input lookup_field mi qs (.strV data)
  match runFirst with
  | .ok i => .ok i
  | .uncaught => .uncaught
  | .validationError e1 =>
    match runSecond with
    | .ok i => .ok i
    | .uncaught => .uncaught
    | .validationError _ => .validationError e1

/-! ## Nested input and deferred operations (`conversion.py`, `deferred.py`,
`relations.py`) -/

/-- Embeds the state of a `DeferredRelatedOperation`: the nested serializer
it carries is bound to an optional existing target instance (the
update-if-exists path) and holds the validated, not yet persisted data. -/
structure DeferredRelatedOperation where
  boundInstance : Option Inst
  validated : RowData
deriving Repr, DecidableEq

/-- Embeds `RelatedFieldConversionMixin._handle_nested_input`: refuse when
`create_if_nested` is off, optionally bind an existing instance when the
payload carries a truthy lookup value and `update_if_exists` is on
(`DoesNotExist` maps to no instance, a lookup-value coercion error
propagates uncaught), run the child serializer validation
(`validate instOpt data` models `serializer_class(instOpt, data=data,
partial=instOpt is not None).is_valid()` with its `validated_data`), and on
success wrap the validated serializer in a deferred operation.  The
function performs no store writes: it only reads `db`. -/
def handle_nested_input (mi : ModelInfo)
    (create_if_nested update_if_exists : Bool) (lookup_field : String)
    (validate : Option Inst → RowData → Except (List String) RowData)
    (db : List Inst) (data : RowData) : PyOutcome DeferredRelatedOperation :=
  if !create_if_nested then .validationError .invalid
  else
    match (if pyTruthy ((dictGet data lookup_field).getD .nullV)
            && update_if_exists then
        qs_get mi db lookup_field ((dictGet data lookup_field).getD .nullV)
      else some none) with
    | none => .uncaught
    | some instOpt =>
      match validate instOpt data with
      | .error _ => .validationError .nestedInvalid
      | .ok validated => .ok ⟨instOpt, validated⟩

/-- Fresh primary key for a newly inserted row (database autoincrement). -/
def freshPk (db : List Inst) : Nat :=
  (db.map (fun i => i.pk)).foldr max 0 + 1

/-- Applies a dictionary of attribute values on top of existing attributes
(Django sets each attribute then saves). -/
def applyAttrs (attrs : RowData) (updates : RowData) : RowData :=
  updates.foldl (fun d kv => dictSet d kv.1 kv.2) attrs

/-- DRF `ModelSerializer.save(**save_kwargs)` on the serializer a deferred
operation carries: inserts a fresh row from the validated data (create
path) or updates the bound instance (update path).  This is the only point
at which the deferred child reaches storage. -/
def saveNested (op : DeferredRelatedOperation) (db : List Inst)
    (extra : RowData) : Inst × List Inst :=
  match op.boundInstance with
  | none =>
    let newInst : Inst :=
      ⟨freshPk db, applyAttrs (applyAttrs [] op.validated) extra⟩
    (newInst, db ++ [newInst])
  | some i =>
    let updated : Inst :=
      ⟨i.pk, applyAttrs (applyAttrs i.attrs op.validated) extra⟩
    (updated, db.map (fun r => if r.pk = i.pk then updated else r))

/-- Embeds `DeferredRelatedOperation.resolve`, which calls
`RelatedFieldRelationWriteMixin._save_deferred_serializer`: for a
reverse_fk field with a parent instance, the child link field is required
(else a ValidationError) and the parent is injected as a save kwarg; the
nested serializer `save()` (`saveNested`) then reaches storage. -/
def save_deferred_serializer (relation_kind : String)
    (child_link_field : Option String) (parentPk : Option Nat)
    (op : DeferredRelatedOperation) (db : List Inst) :
    Except FieldErr (Inst × List Inst) :=
  if parentPk.isSome && (relation_kind == "reverse_fk") then
    if !childLinkTruthy child_link_field then .error .childLinkFieldRequired
    else
      .ok (saveNested op db
        [(child_link_field.getD "", .intV (parentPk.getD 0))])
  else
    .ok (saveNested op db [])

/-- Composition of the validate-then-save serializer lifecycle around a
nested relation field: field conversion runs `handle_nested_input` during
parent validation; a failed parent validation (`parentValid = false`)
discards the deferred operation; a successful parent save resolves it via
`save_deferred_serializer` (as `BaseModelSerializer.create/update` do
through `resolve_related_value`).  Every failure path leaves storage at
`db`, mirroring both the absence of writes on validation paths and the
transaction rollback on save-time errors. -/
def nested_parent_flow (mi : ModelInfo)
    (create_if_nested update_if_exists : Bool) (lookup_field : String)
    (validate : Option Inst → RowData → Except (List String) RowData)
    (relation_kind : String) (child_link_field : Option String)
    (parentPk : Option Nat) (parentValid : Bool)
    (db : List Inst) (data : RowData) : PyOutcome Inst × List Inst :=
  match handle_nested_input mi create_if_nested update_if_exists lookup_field
      validate db data with
  | .ok op =>
    if parentValid then
      match save_deferred_serializer relation_kind child_link_field parentPk
          op db with
      | .ok (i, db2) => (.ok i, db2)
      | .error e => (.validationError e, db)
    else (.validationError .invalid, db)
  | .validationError e => (.validationError e, db)
  | .uncaught => (.uncaught, db)

/-! ## Root-first relation application (`relations.py`) -/

/-- A child-model row as seen by the reverse foreign key write path: its
primary key and the current value of the child link column (the
`<child_link_field>_id` attribute, `none` when NULL). -/
structure Child where
  pk : Nat
  link : Option Nat
deriving Repr, DecidableEq

/-- ORM state touched by `apply_root_first_relation`: the rows of the child
model (for reverse fk), the parent's related set reached through the source
attribute manager (for m2m kinds), and the parent's plain attribute (for the
generic fallthrough branch). -/
structure RelState where
  children : List Child
  m2m : List Nat
  genericAttr : Option (List Nat)
deriving Repr, DecidableEq

/-- Embeds `RelatedFieldRelationWriteMixin.apply_root_first_relation`.
`value` is the resolved value as the list of child primary keys (the source
wraps a scalar into a one-element list); `boundFieldNull` is `none` when
`_bound_model_field` is unset and otherwise carries the `null` flag of the
bound concrete foreign key.  A raised `ValidationError` is modelled as
`Except.error`: the enclosing serializer-save transaction rolls back all
writes made before the raise, so the error branch carries no state. -/
def apply_root_first_relation (relation_kind : String)
    (child_link_field : Option String) (sync_mode : String)
    (boundFieldNull : Option Bool) (parentPk : Nat) (value : List Nat)
    (st : RelState) : Except String RelState :=
  if relation_kind = "reverse_fk" then
    if !childLinkTruthy child_link_field then
      .error "relation_write.child_link_field required for reverse_fk operations"
    else
      let relinked := st.children.map (fun c =>
        if c.pk ∈ value ∧ c.link ≠ some parentPk then
          { c with link := some parentPk }
        else c)
      if sync_mode = "replace" ∨ sync_mode = "sync" then
        if boundFieldNull ≠ some true then
          .error "replace/sync for reverse_fk requires a nullable child foreign key"
        else
          let provided_ids := value.filter (fun pk => pk ≠ 0)
          .ok { st with children := relinked.map (fun c =>
            if c.link = some parentPk ∧ c.pk ∉ provided_ids then
              { c with link := none }
            else c) }
      else .ok { st with children := relinked }
  else if relation_kind = "reverse_m2m" ∨ relation_kind = "m2m" then
    if sync_mode = "replace" ∨ sync_mode = "sync" then
      .ok { st with m2m := value }
    else if !value.isEmpty then
      .ok { st with m2m := st.m2m ++ value.filter (fun v => v ∉ st.m2m) }
    else .ok st
  else .ok { st with genericAttr := some value }

/-- True when an `Except` carries an error. -/
def isExceptError {ε α : Type} : Except ε α → Bool
  | .error _ => true
  | .ok _ => false

/-- The success value of an `Except`, with a fallback for the error case. -/
def getExceptOk {ε α : Type} (dflt : α) : Except ε α → α
  | .ok a => a
  | .error _ => dflt

/-- A passthrough child serializer used by concrete witnesses: accepts any
payload and returns it unchanged as validated data. -/
def validate0 : Option Inst → RowData → Except (List String) RowData :=
  fun _ d => .ok d

/-! ## Bulk delete (`bulk.py`) -/

/-- A dependent row of some model, cascade-deleted together with the
target-model row it is linked to (e.g. a join-table row whose foreign key
has on_delete CASCADE).  `label` is its model label in the per-model
deletion summary Django returns. -/
structure DepRow where
  label : String
  parent : Nat
deriving Repr, DecidableEq

/-- Storage visible to the bulk delete endpoint: the accessible target-model
rows (by pk), the cascade-linked dependent rows, and the target model label
(`queryset.model._meta.label`). -/
structure DeleteStore where
  target : List Nat
  deps : List DepRow
  targetLabel : String
deriving Repr, DecidableEq

/-- Matched pks of `queryset.filter(pk__in=ids)`: target rows whose pk
string-matches a requested id (the endpoint itself compares ids through
`str`). -/
def foundIdsOf (st : DeleteStore) (ids : List Value) : List Nat :=
  st.target.filter (fun p => ids.any (fun v => pyStr v == toString p))

/-- Embeds the missing-id computation of `_get_queryset_data`:
`set(map(str, ids)) - set(map(str, found_ids))`, modelled as the
first-occurrence deduplication of the requested id strings minus the found
pk strings (the Python set is unordered; content and size are what the
response reports). -/
def missingIdsOf (ids : List Value) (found : List Nat) : List String :=
  ((ids.map pyStr).dedup).filter (fun s => !found.any (fun p => toString p == s))

/-- Per-model deletion summary of Django `queryset.delete()`: for a given
label, the matched target rows counted under the target label plus the
cascade-deleted dependent rows carrying that label. -/
def deleteDetails (st : DeleteStore) (found : List Nat) (label : String) : Nat :=
  (if label = st.targetLabel then found.length else 0)
  + (st.deps.filter (fun d => found.contains d.parent && d.label == label)).length

/-- Response payload of `_build_base_response_data` plus the success flag of
the rendered envelope. -/
structure BulkDeleteResponse where
  success : Bool
  requested_count : Nat
  missing_ids : List String
  missing_count : Nat
  count : Nat
deriving Repr, DecidableEq

/-- Embeds `BulkDeleteModelMixin.bulk_delete`: validate the id list
(`_validate_delete_ids`: list shape by typing, non-empty, within batch
size), compute found and missing ids, delete the found rows and their
cascades in one statement when any were found, and report the count taken
from the target-model entry of the deletion summary.  A validation failure
renders an error response and leaves storage untouched. -/
def bulk_delete (bulk_batch_size : Nat) (st : DeleteStore) (ids : List Value) :
    BulkDeleteResponse × DeleteStore :=
  if ids = [] ∨ bulk_batch_size < ids.length then
    ({ success := false, requested_count := 0, missing_ids := [],
       missing_count := 0, count := 0 }, st)
  else
    let found := foundIdsOf st ids
    let missing := missingIdsOf ids found
    let deleted_count := if found.isEmpty then 0
      else deleteDetails st found st.targetLabel
    let st2 := if found.isEmpty then st
      else { st with
        target := st.target.filter (fun p => !found.contains p)
        deps := st.deps.filter (fun d => !found.contains d.parent) }
    ({ success := true, requested_count := ids.length, missing_ids := missing,
       missing_count := missing.length, count := deleted_count }, st2)

/-! ## Bulk update (`crud.py`, `base.py`, `bulk.py`) -/

/-- Batch-level errors raised as `ValidationError` on the bulk update path
(the non-list and non-dict-row cases are excluded by typing). -/
inductive BulkErr where
  | emptyPayload
  | missingId (idx : Nat)
  | duplicateId (idx : Nat)
  | missingInstances (ids : List Value)
  | countMismatch
  | deferredField
deriving Repr, DecidableEq

/-- Python `"id" not in item or item.get("id") in (None, "")` on a payload
row. -/
def idMissing (item : RowData) : Bool :=
  match dictGet item "id" with
  | none => true
  | some v => v == Value.nullV || v == Value.strV ""

/-- The raw id of a row (`item["id"]`); callers use it only after
`idMissing` ruled out the absent case. -/
def rowIdValue (item : RowData) : Value :=
  (dictGet item "id").getD .nullV

/-- Python `str(row_id)`: the normalisation used for duplicate detection
and for the id-keyed instance dictionary. -/
def normalizedId (item : RowData) : String :=
  pyStr (rowIdValue item)

/-- Embeds the row-walking loop of `_resolve_bulk_update_instances`: every
row must carry a usable id, a duplicate normalised id is rejected, and the
raw ids come back in row order.  `seen` accumulates the normalised ids
already encountered and `idx` is the zero-based row index carried into the
error detail. -/
def collectRequestedIds (idx : Nat) :
    List RowData → List String → Except BulkErr (List Value)
  | [], _ => .ok []
  | item :: rest, seen =>
    if idMissing item then .error (.missingId idx)
    else if normalizedId item ∈ seen then .error (.duplicateId idx)
    else
      match collectRequestedIds (idx + 1) rest (normalizedId item :: seen) with
      | .error e => .error e
      | .ok tl => .ok (rowIdValue item :: tl)

/-- The single-query instance fetch
`self.get_queryset().filter(pk__in=requested_ids)`.  Ids are matched
through their string form, as the id-keyed dictionary built right after the
fetch does; an id the pk column cannot coerce simply matches nothing here
(in Django it raises an uncaught ValueError, which equally rejects the
batch with no modification). -/
def fetchInstances (db : List Inst) (requested : List Value) : List Inst :=
  db.filter (fun r => requested.any (fun v => pyStr v == toString r.pk))

/-- The `missing_ids` computation: requested ids whose string form matches
no fetched instance. -/
def missingInstanceIds (db : List Inst) (requested : List Value) :
    List Value :=
  requested.filter (fun v =>
    !(fetchInstances db requested).any (fun r => toString r.pk == pyStr v))

/-- Embeds `UpdateModelMixin._resolve_bulk_update_instances`: reject empty
payloads (non-lists by typing), collect the unique ids, fetch all matching
accessible instances in one query, reject the whole batch when any id is
missing, and return the instances re-associated to rows by id in exact
request-row order.  The `getD` fallback row is unreachable: the missing-id
check guarantees every row id resolves. -/
def resolve_bulk_update_instances (db : List Inst) (payload : List RowData) :
    Except BulkErr (List Inst) :=
  if payload = [] then .error .emptyPayload
  else
    match collectRequestedIds 0 payload [] with
    | .error e => .error e
    | .ok requested =>
      if missingInstanceIds db requested ≠ [] then
        .error (.missingInstances (missingInstanceIds db requested))
      else
        .ok (payload.map (fun item =>
          ((fetchInstances db requested).find? (fun r =>
            toString r.pk == normalizedId item)).getD ⟨0, []⟩))

/-- Modelled from the spec: the DRF list serializer validates each row in
request order, and the read-only primary key field is excluded from
`validated_data`, so the writable row fields are applied by direct
attribute assignment (section 4.5 step 5 of the spec; the serializer class
itself is framework code outside this repository). -/
def validatedOf (item : RowData) : RowData :=
  item.filter (fun kv => kv.1 != "id")

/-- The `has_updated_at`/`has_updated_by` computation of
`BulkUpdateListSerializer.update`: audit columns are auto-populated only in
direct-write mode and only when the model has the column. -/
def hasAuditField (use_save_on_bulk_update : Bool)
    (model_fields : List String) (name : String) : Bool :=
  !use_save_on_bulk_update && model_fields.contains name

/-- Embeds `BulkUpdateListSerializer._apply_audit_defaults_if_missing`:
inject `updated_at` (and `updated_by` when a current user exists) into a
row that did not set it itself. -/
def apply_audit_defaults_if_missing (has_updated_at has_updated_by : Bool)
    (now_value : Value) (current_user : Option Value)
    (item_data : RowData) : RowData :=
  let d1 := if has_updated_at && !dictHasKey item_data "updated_at" then
      dictSet item_data "updated_at" now_value
    else item_data
  if has_updated_by && !dictHasKey d1 "updated_by" && current_user.isSome then
    dictSet d1 "updated_by" (current_user.getD .nullV)
  else d1

/-- The per-row `setattr(inst, attr, value)` loop: sets every row field on
the instance object. -/
def applyRowToInst (inst : Inst) (item_data : RowData) : Inst :=
  ⟨inst.pk, applyAttrs inst.attrs item_data⟩

/-- Persisting an updated instance object: both the single
`bulk_update` statement and a per-instance `save()` leave the stored row
with the instance pk equal to the in-memory instance object (columns the
row did not touch keep their stored values, which the instance object still
carries). -/
def storeInst (db : List Inst) (r : Inst) : List Inst :=
  db.map (fun x => if x.pk = r.pk then r else x)

/-- Embeds `BulkUpdateListSerializer.update`: reject an
instance/row count mismatch, reject rows containing deferred relation
operations, then apply each validated row (with audit defaults in
direct-write mode) to its positionally zipped instance and persist every
touched row.  Any raise rolls the `@transaction.atomic` update back, so the
error branches carry no state. -/
def bulk_list_update (use_save_on_bulk_update : Bool)
    (model_fields : List String) (now_value : Value)
    (current_user : Option Value) (db : List Inst) (instances : List Inst)
    (validated_data : List RowData) : Except BulkErr (List Inst) :=
  if instances.length ≠ validated_data.length then .error .countMismatch
  else if validated_data.any (fun row =>
      row.any (fun kv => contains_deferred_related_operation kv.2)) then
    .error .deferredField
  else
    .ok (((instances.zip validated_data).map (fun p =>
      applyRowToInst p.1 (apply_audit_defaults_if_missing
        (hasAuditField use_save_on_bulk_update model_fields "updated_at")
        (hasAuditField use_save_on_bulk_update model_fields "updated_by")
        now_value current_user p.2))).foldl storeInst db)

/-- Embeds `BulkUpdateModelMixin.bulk_update` composed with
`UpdateModelMixin.update(many_on_update=True)` and the list serializer:
batch validation (`validate_bulk_data`: list shape by typing, non-empty,
batch size), instance resolution, row validation and the transactional
write.  The second component is the success flag of the rendered envelope;
every error path leaves storage unchanged (transaction rollback). -/
def bulk_update_endpoint (bulk_batch_size : Nat)
    (use_save_on_bulk_update : Bool) (model_fields : List String)
    (now_value : Value) (current_user : Option Value) (db : List Inst)
    (payload : List RowData) : List Inst × Bool :=
  if payload = [] ∨ bulk_batch_size < payload.length then (db, false)
  else
    match resolve_bulk_update_instances db payload with
    | .error _ => (db, false)
    | .ok instances =>
      match bulk_list_update use_save_on_bulk_update model_fields now_value
          current_user db instances (payload.map validatedOf) with
      | .error _ => (db, false)
      | .ok db2 => (db2, true)

/-- The id-contract violations of C1, as a predicate on a batch: some row
with a missing/null/empty id, duplicate normalised ids, or some row id
matching no accessible instance. -/
def hasIdContractViolation (db : List Inst) (payload : List RowData) : Prop :=
  (∃ item ∈ payload, idMissing item = true) ∨
  ¬(payload.map normalizedId).Nodup ∨
  (∃ item ∈ payload, ∀ r ∈ db, toString r.pk ≠ normalizedId item)

/-- Stated from the spec for C2: the row-to-instance mapping is by id, so
after a successful bulk update every stored row that some payload row
addresses by id equals that row applied to the old stored row, and rows no
payload row addresses are untouched. -/
def rowIdMappedState (use_save_on_bulk_update : Bool)
    (model_fields : List String) (now_value : Value)
    (current_user : Option Value) (db : List Inst)
    (payload : List RowData) : List Inst :=
  db.map (fun r =>
    match payload.find? (fun item => normalizedId item == toString r.pk) with
    | some item =>
      applyRowToInst r (apply_audit_defaults_if_missing
        (hasAuditField use_save_on_bulk_update model_fields "updated_at")
        (hasAuditField use_save_on_bulk_update model_fields "updated_by")
        now_value current_user (validatedOf item))
    | none => r)

/-- The instance `_resolve_bulk_update_instances` re-associates to a row:
first fetched instance whose pk string equals the row's normalised id. -/
def resolvedInstanceFor (db : List Inst) (payload : List RowData)
    (item : RowData) : Inst :=
  ((fetchInstances db (payload.map rowIdValue)).find? (fun r =>
    toString r.pk == normalizedId item)).getD ⟨0, []⟩

/-- The in-memory instance object for a row after the attribute-assignment
loop of `BulkUpdateListSerializer.update`. -/
def updatedInstFor (use_save_on_bulk_update : Bool)
    (model_fields : List String) (now_value : Value)
    (current_user : Option Value) (db : List Inst) (payload : List RowData)
    (item : RowData) : Inst :=
  applyRowToInst (resolvedInstanceFor db payload item)
    (apply_audit_defaults_if_missing
      (hasAuditField use_save_on_bulk_update model_fields "updated_at")
      (hasAuditField use_save_on_bulk_update model_fields "updated_by")
      now_value current_user (validatedOf item))

/-- Batch validity for the bulk update pipeline: the conjunction of the
conditions under which no layer raises. -/
def validBatch (bulk_batch_size : Nat) (db : List Inst)
    (payload : List RowData) : Prop :=
  payload ≠ [] ∧ payload.length ≤ bulk_batch_size ∧
  (∀ item ∈ payload, idMissing item = false) ∧
  (payload.map normalizedId).Nodup ∧
  (∀ item ∈ payload, ∃ r ∈ db, toString r.pk = normalizedId item) ∧
  (payload.map validatedOf).any (fun row =>
    row.any (fun kv => contains_deferred_related_operation kv.2)) = false

/-! ## Lemmas about the bulk update pipeline -/

/-- A successful id-collection walk implies: the returned ids are the row
ids in order, every row has a usable id, the normalised ids are duplicate
free, and none of them was in the incoming seen set. -/
theorem collectRequestedIds_ok_spec (payload : List RowData) :
    ∀ (idx : Nat) (seen : List String) (requested : List Value),
    collectRequestedIds idx payload seen = .ok requested →
    requested = payload.map rowIdValue ∧
    (∀ item ∈ payload, idMissing item = false) ∧
    (payload.map normalizedId).Nodup ∧
    (∀ s ∈ payload.map normalizedId, s ∉ seen) := by
  induction payload with
  | nil =>
    intro idx seen requested h
    simp [collectRequestedIds] at h
    subst h
    simp
  | cons item rest ih =>
    intro idx seen requested h
    unfold collectRequestedIds at h
    by_cases h1 : idMissing item = true
    · rw [if_pos h1] at h
      exact Except.noConfusion h
    · rw [if_neg h1] at h
      by_cases h2 : normalizedId item ∈ seen
      · rw [if_pos h2] at h
        exact Except.noConfusion h
      · rw [if_neg h2] at h
        cases hrec : collectRequestedIds (idx + 1) rest
            (normalizedId item :: seen) with
        | error e =>
          rw [hrec] at h
          exact Except.noConfusion h
        | ok tl =>
          rw [hrec] at h
          have hreq := Except.ok.inj h
          obtain ⟨htl, hmiss, hnd, hseen⟩ := ih (idx + 1)
            (normalizedId item :: seen) tl hrec
          refine ⟨?_, ?_, ?_, ?_⟩
          · rw [← hreq, htl, List.map_cons]
          · intro i hi
            rcases List.mem_cons.mp hi with hh | ht
            · rw [hh]
              exact eq_false_of_ne_true h1
            · exact hmiss i ht
          · rw [List.map_cons, List.nodup_cons]
            refine ⟨?_, hnd⟩
            intro hmem
            exact (hseen _ hmem) (List.mem_cons_self _ _)
          · intro s hs
            rcases List.mem_cons.mp hs with hh | ht
            · rw [hh]
              exact h2
            · intro hsseen
              exact (hseen s ht) (List.mem_cons_of_mem _ hsseen)

/-- Conversely, a batch whose rows all carry usable, duplicate-free ids
that avoid the seen set makes the id-collection walk succeed with the row
ids in order. -/
theorem collectRequestedIds_ok_of_valid (payload : List RowData) :
    ∀ (idx : Nat) (seen : List String),
    (∀ item ∈ payload, idMissing item = false) →
    (payload.map normalizedId).Nodup →
    (∀ s ∈ payload.map normalizedId, s ∉ seen) →
    collectRequestedIds idx payload seen = .ok (payload.map rowIdValue) := by
  induction payload with
  | nil =>
    intro idx seen _ _ _
    simp [collectRequestedIds]
  | cons item rest ih =>
    intro idx seen hmiss hnd hseen
    have h1 : ¬idMissing item = true := by
      rw [hmiss item (List.mem_cons_self _ _)]
      exact Bool.false_ne_true
    have h2 : normalizedId item ∉ seen :=
      hseen _ (List.mem_map_of_mem normalizedId (List.mem_cons_self _ _))
    have hndr : (rest.map normalizedId).Nodup :=
      (List.nodup_cons.mp (by simpa using hnd)).2
    have hhead : normalizedId item ∉ rest.map normalizedId :=
      (List.nodup_cons.mp (by simpa using hnd)).1
    have hrec := ih (idx + 1) (normalizedId item :: seen)
      (fun i hi => hmiss i (List.mem_cons_of_mem _ hi)) hndr
      (by
        intro s hs
        rw [List.mem_cons]
        rintro (hh | ht)
        · rw [hh] at hs
          exact hhead hs
        · exact hseen s (List.mem_cons_of_mem _ hs) ht)
    unfold collectRequestedIds
    rw [if_neg h1, if_neg h2, hrec]
    rfl

/-- Writing back a list of updated instances with duplicate-free pks turns
storage into a pointwise replacement by pk. -/
theorem foldl_storeInst_eq_map (L : List Inst) :
    ∀ (db : List Inst), (L.map Inst.pk).Nodup →
    L.foldl storeInst db
      = db.map (fun r => (L.find? (fun u => u.pk == r.pk)).getD r) := by
  induction L with
  | nil =>
    intro db _
    simp [List.find?]
  | cons u L ih =>
    intro db hnd
    have hndt : (L.map Inst.pk).Nodup := (List.nodup_cons.mp (by simpa using hnd)).2
    have hhead : u.pk ∉ L.map Inst.pk := (List.nodup_cons.mp (by simpa using hnd)).1
    rw [List.foldl_cons, ih (storeInst db u) hndt]
    unfold storeInst
    rw [List.map_map]
    apply List.map_congr_left
    intro r _
    simp only [Function.comp]
    by_cases hpk : r.pk = u.pk
    · rw [if_pos hpk]
      have hfL : L.find? (fun x => x.pk == u.pk) = none := by
        rw [List.find?_eq_none]
        intro a ha
        simp only [beq_iff_eq]
        intro heq
        exact hhead (heq ▸ List.mem_map_of_mem Inst.pk ha)
      have hhd : ((u :: L).find? (fun x => x.pk == r.pk)) = some u :=
        List.find?_cons_of_pos L (by simp [hpk])
      rw [hhd, hfL]
      rfl
    · rw [if_neg hpk]
      have hhd : ((u :: L).find? (fun x => x.pk == r.pk)) = L.find? (fun x => x.pk == r.pk) :=
        List.find?_cons_of_neg L
          (by simp only [beq_iff_eq]; exact fun h => hpk h.symm)
      rw [hhd]

/-- `find?` only depends on the predicate values on list members. -/
theorem find?_congr_mem {α : Type} (l : List α) (p q : α → Bool)
    (h : ∀ a ∈ l, p a = q a) : l.find? p = l.find? q := by
  induction l with
  | nil => rfl
  | cons a l ih =>
    by_cases hp : p a = true
    · rw [List.find?_cons_of_pos l hp,
        List.find?_cons_of_pos l (by rw [← h a (List.mem_cons_self _ _)]; exact hp)]
    · rw [List.find?_cons_of_neg l hp,
        List.find?_cons_of_neg l (by rw [← h a (List.mem_cons_self _ _)]; exact hp),
        ih (fun b hb => h b (List.mem_cons_of_mem _ hb))]

/-- When at most one member satisfies the predicate, `find?` is invariant
under permutation. -/
theorem find?_perm_of_unique {α : Type} (l l2 : List α) (hp : l.Perm l2)
    (p : α → Bool)
    (huniq : ∀ a ∈ l, ∀ b ∈ l, p a = true → p b = true → a = b) :
    l.find? p = l2.find? p := by
  cases h1 : l.find? p with
  | none =>
    cases h2 : l2.find? p with
    | none => rfl
    | some b =>
      have hb : b ∈ l := hp.mem_iff.mpr (List.mem_of_find?_eq_some h2)
      have hpb := List.find?_some h2
      rw [List.find?_eq_none] at h1
      exact absurd hpb (h1 b hb)
  | some a =>
    cases h2 : l2.find? p with
    | none =>
      have ha : a ∈ l2 := hp.mem_iff.mp (List.mem_of_find?_eq_some h1)
      have hpa := List.find?_some h1
      rw [List.find?_eq_none] at h2
      exact absurd hpa (h2 a ha)
    | some b =>
      have ha : a ∈ l := List.mem_of_find?_eq_some h1
      have hb : b ∈ l := hp.mem_iff.mpr (List.mem_of_find?_eq_some h2)
      rw [huniq a ha b hb (List.find?_some h1) (List.find?_some h2)]

/-- `any` only depends on membership, so it transfers along permutations. -/
theorem any_perm {α : Type} (l l2 : List α) (hp : l.Perm l2) (p : α → Bool) :
    l.any p = l2.any p := by
  have hiff : (l.any p = true) ↔ (l2.any p = true) := by
    simp only [List.any_eq_true]
    constructor
    · rintro ⟨x, hx, hpx⟩
      exact ⟨x, hp.mem_iff.mp hx, hpx⟩
    · rintro ⟨x, hx, hpx⟩
      exact ⟨x, hp.mem_iff.mpr hx, hpx⟩
  cases hb1 : l.any p <;> cases hb2 : l2.any p <;> simp_all

/-- With duplicate-free pk strings, the instance re-associated to a row is
exactly the accessible row whose pk string equals the row's id. -/
theorem resolvedInstanceFor_spec (db : List Inst) (payload : List RowData)
    (hdbs : (db.map (fun r => toString r.pk)).Nodup)
    (item : RowData) (hitem : item ∈ payload)
    (r : Inst) (hr : r ∈ db) (hstr : toString r.pk = normalizedId item) :
    resolvedInstanceFor db payload item = r := by
  have hpv : pyStr (rowIdValue item) = toString r.pk := by
    rw [show pyStr (rowIdValue item) = normalizedId item from rfl]
    exact hstr.symm
  have hrf : r ∈ fetchInstances db (payload.map rowIdValue) := by
    apply List.mem_filter.mpr
    refine ⟨hr, ?_⟩
    apply List.any_eq_true.mpr
    refine ⟨rowIdValue item, List.mem_map_of_mem rowIdValue hitem, ?_⟩
    simp [hpv]
  unfold resolvedInstanceFor
  cases hf : (fetchInstances db (payload.map rowIdValue)).find? (fun x =>
      toString x.pk == normalizedId item) with
  | none =>
    rw [List.find?_eq_none] at hf
    have := hf r hrf
    simp [hstr] at this
  | some r2 =>
    have hr2db : r2 ∈ db :=
      (List.mem_filter.mp (List.mem_of_find?_eq_some hf)).1
    have hp2 := List.find?_some hf
    simp only [beq_iff_eq] at hp2
    have h2r : r2 = r :=
      List.inj_on_of_nodup_map hdbs hr2db hr (by rw [hp2, hstr])
    simp [h2r]

/-- A non-empty batch whose rows all carry usable duplicate-free ids that
all resolve makes `_resolve_bulk_update_instances` succeed with the
row-order re-associated instances. -/
theorem resolve_ok_of_validBatch (db : List Inst) (payload : List RowData)
    (hne : payload ≠ [])
    (hmiss : ∀ item ∈ payload, idMissing item = false)
    (hnd : (payload.map normalizedId).Nodup)
    (hfound : ∀ item ∈ payload, ∃ r ∈ db, toString r.pk = normalizedId item) :
    resolve_bulk_update_instances db payload
      = .ok (payload.map (resolvedInstanceFor db payload)) := by
  have hm0 : missingInstanceIds db (payload.map rowIdValue) = [] := by
    unfold missingInstanceIds
    rw [List.filter_eq_nil_iff]
    intro v hv
    obtain ⟨item, hitem, hvi⟩ := List.mem_map.mp hv
    obtain ⟨r, hr, hstr⟩ := hfound item hitem
    have hpv : pyStr v = toString r.pk := by
      rw [← hvi, show pyStr (rowIdValue item) = normalizedId item from rfl]
      exact hstr.symm
    have hrf : r ∈ fetchInstances db (payload.map rowIdValue) := by
      apply List.mem_filter.mpr
      refine ⟨hr, ?_⟩
      apply List.any_eq_true.mpr
      exact ⟨v, hv, by simp [hpv]⟩
    simp only [Bool.not_eq_true', Bool.not_eq_false]
    exact List.any_eq_true.mpr ⟨r, hrf, by simp [hpv]⟩
  unfold resolve_bulk_update_instances
  rw [if_neg hne,
    collectRequestedIds_ok_of_valid payload 0 [] hmiss hnd (by simp)]
  simp only [hm0, ne_eq, not_true_eq_false, if_false]
  rfl

/-- The list serializer update succeeds on aligned, deferred-free rows and
writes back every zipped, audit-defaulted row application. -/
theorem bulk_list_update_ok (use_save : Bool) (model_fields : List String)
    (now_value : Value) (current_user : Option Value) (db : List Inst)
    (instances : List Inst) (rows : List RowData)
    (hlen : instances.length = rows.length)
    (hdef : rows.any (fun row => row.any (fun kv =>
      contains_deferred_related_operation kv.2)) = false) :
    bulk_list_update use_save model_fields now_value current_user db
      instances rows
      = .ok (((instances.zip rows).map (fun p =>
          applyRowToInst p.1 (apply_audit_defaults_if_missing
            (hasAuditField use_save model_fields "updated_at")
            (hasAuditField use_save model_fields "updated_by")
            now_value current_user p.2))).foldl storeInst db) := by
  unfold bulk_list_update
  rw [if_neg (fun h => h hlen), if_neg (by rw [hdef]; exact Bool.false_ne_true)]

/-- Writing back the zipped row applications produces exactly the
by-id-mapped state: every stored row addressed by some payload row id
becomes that row applied to it, all other rows stay unchanged. -/
theorem foldl_updated_eq_rowIdMapped (use_save : Bool)
    (model_fields : List String) (now_value : Value)
    (current_user : Option Value) (db : List Inst) (payload : List RowData)
    (hdbs : (db.map (fun r => toString r.pk)).Nodup)
    (hnd : (payload.map normalizedId).Nodup)
    (hfound : ∀ item ∈ payload, ∃ r ∈ db, toString r.pk = normalizedId item) :
    (((payload.map (resolvedInstanceFor db payload)).zip
        (payload.map validatedOf)).map (fun p =>
      applyRowToInst p.1 (apply_audit_defaults_if_missing
        (hasAuditField use_save model_fields "updated_at")
        (hasAuditField use_save model_fields "updated_by")
        now_value current_user p.2))).foldl storeInst db
      = rowIdMappedState use_save model_fields now_value current_user db
          payload := by
  have hGstr : ∀ item ∈ payload,
      toString (resolvedInstanceFor db payload item).pk = normalizedId item := by
    intro item hitem
    obtain ⟨r, hr, hstr⟩ := hfound item hitem
    rw [resolvedInstanceFor_spec db payload hdbs item hitem r hr hstr, hstr]
  rw [List.zip_map', List.map_map]
  rw [show ((fun p => applyRowToInst p.1 (apply_audit_defaults_if_missing
      (hasAuditField use_save model_fields "updated_at")
      (hasAuditField use_save model_fields "updated_by")
      now_value current_user p.2)) ∘ (fun x =>
        (resolvedInstanceFor db payload x, validatedOf x)))
      = updatedInstFor use_save model_fields now_value current_user db
          payload from rfl]
  have hUpk : ((payload.map (updatedInstFor use_save model_fields now_value
      current_user db payload)).map Inst.pk).Nodup := by
    rw [List.map_map]
    have hmapstr : payload.map (toString ∘ (Inst.pk ∘ updatedInstFor use_save
        model_fields now_value current_user db payload))
        = payload.map normalizedId := by
      apply List.map_congr_left
      intro item hitem
      show toString (updatedInstFor use_save model_fields now_value
        current_user db payload item).pk = normalizedId item
      rw [show (updatedInstFor use_save model_fields now_value current_user
        db payload item).pk = (resolvedInstanceFor db payload item).pk
        from rfl]
      exact hGstr item hitem
    have hmn : ((payload.map (Inst.pk ∘ updatedInstFor use_save model_fields
        now_value current_user db payload)).map toString).Nodup := by
      rw [List.map_map, hmapstr]
      exact hnd
    exact List.Nodup.of_map toString hmn
  rw [foldl_storeInst_eq_map _ db hUpk]
  unfold rowIdMappedState
  apply List.map_congr_left
  intro r hr
  rw [List.find?_map]
  rw [find?_congr_mem payload _
    (fun item => normalizedId item == toString r.pk) ?hpred]
  case hpred =>
    intro item hitem
    show ((updatedInstFor use_save model_fields now_value current_user db
      payload item).pk == r.pk) = (normalizedId item == toString r.pk)
    rw [show (updatedInstFor use_save model_fields now_value current_user db
      payload item).pk = (resolvedInstanceFor db payload item).pk from rfl]
    by_cases hc : (resolvedInstanceFor db payload item).pk = r.pk
    · have h2 : normalizedId item = toString r.pk := by
        rw [← hc]
        exact (hGstr item hitem).symm
      simp [hc, h2]
    · have h2 : normalizedId item ≠ toString r.pk := by
        intro heq
        apply hc
        rw [resolvedInstanceFor_spec db payload hdbs item hitem r hr heq.symm]
      simp [hc, h2]
  cases hfq : payload.find? (fun item =>
      normalizedId item == toString r.pk) with
  | none => simp
  | some item =>
    have hitem := List.mem_of_find?_eq_some hfq
    have hpq := List.find?_some hfq
    simp only [beq_iff_eq] at hpq
    have hGr : resolvedInstanceFor db payload item = r :=
      resolvedInstanceFor_spec db payload hdbs item hitem r hr hpq.symm
    simp only [Option.map_some', Option.getD_some]
    rw [show updatedInstFor use_save model_fields now_value current_user db
      payload item = applyRowToInst (resolvedInstanceFor db payload item)
      (apply_audit_defaults_if_missing
        (hasAuditField use_save model_fields "updated_at")
        (hasAuditField use_save model_fields "updated_by")
        now_value current_user (validatedOf item)) from rfl, hGr]

/-- On a valid batch over storage with duplicate-free pk strings, the bulk
update endpoint succeeds and produces the by-id-mapped state. -/
theorem bulk_update_endpoint_of_validBatch (bulk_batch_size : Nat)
    (use_save : Bool) (model_fields : List String) (now_value : Value)
    (current_user : Option Value) (db : List Inst) (payload : List RowData)
    (hdbs : (db.map (fun r => toString r.pk)).Nodup)
    (hv : validBatch bulk_batch_size db payload) :
    bulk_update_endpoint bulk_batch_size use_save model_fields now_value
      current_user db payload
      = (rowIdMappedState use_save model_fields now_value current_user db
          payload, true) := by
  obtain ⟨hne, hsize, hmiss, hnd, hfound, hdef⟩ := hv
  have hguard : ¬(payload = [] ∨ bulk_batch_size < payload.length) := by
    rintro (h | h)
    · exact hne h
    · exact absurd hsize (not_le.mpr h)
  have h1 := resolve_ok_of_validBatch db payload hne hmiss hnd hfound
  have hlen : (payload.map (resolvedInstanceFor db payload)).length
      = (payload.map validatedOf).length := by simp
  have h2 := bulk_list_update_ok use_save model_fields now_value current_user
    db (payload.map (resolvedInstanceFor db payload))
    (payload.map validatedOf) hlen hdef
  unfold bulk_update_endpoint
  rw [if_neg hguard]
  simp only [h1, h2]
  rw [foldl_updated_eq_rowIdMapped use_save model_fields now_value
    current_user db payload hdbs hnd hfound]

/-- An empty missing-id list means every row id resolves to an accessible
instance. -/
theorem found_of_no_missing (db : List Inst) (payload : List RowData)
    (requested : List Value) (hreq : requested = payload.map rowIdValue)
    (hm : missingInstanceIds db requested = []) :
    ∀ item ∈ payload, ∃ r ∈ db, toString r.pk = normalizedId item := by
  intro item hitem
  have hv : rowIdValue item ∈ requested := by
    rw [hreq]
    exact List.mem_map_of_mem rowIdValue hitem
  unfold missingInstanceIds at hm
  have hcond := List.filter_eq_nil_iff.mp hm (rowIdValue item) hv
  simp only [Bool.not_eq_true', Bool.not_eq_false] at hcond
  obtain ⟨r, hrf, hrb⟩ := List.any_eq_true.mp hcond
  simp only [beq_iff_eq] at hrb
  exact ⟨r, (List.mem_filter.mp hrf).1, hrb⟩

/-- A batch the endpoint accepts satisfies every validity condition. -/
theorem validBatch_of_success (bulk_batch_size : Nat) (use_save : Bool)
    (model_fields : List String) (now_value : Value)
    (current_user : Option Value) (db : List Inst) (payload : List RowData)
    (hsucc : (bulk_update_endpoint bulk_batch_size use_save model_fields
      now_value current_user db payload).2 = true) :
    validBatch bulk_batch_size db payload := by
  unfold bulk_update_endpoint at hsucc
  by_cases hguard : payload = [] ∨ bulk_batch_size < payload.length
  · rw [if_pos hguard] at hsucc
    exact Bool.noConfusion hsucc
  · rw [if_neg hguard] at hsucc
    push_neg at hguard
    obtain ⟨hne, hsize⟩ := hguard
    cases hres : resolve_bulk_update_instances db payload with
    | error e =>
      rw [hres] at hsucc
      exact Bool.noConfusion hsucc
    | ok instances =>
      rw [hres] at hsucc
      dsimp only at hsucc
      unfold resolve_bulk_update_instances at hres
      rw [if_neg hne] at hres
      cases hc : collectRequestedIds 0 payload [] with
      | error e =>
        rw [hc] at hres
        exact Except.noConfusion hres
      | ok requested =>
        simp only [hc] at hres
        obtain ⟨hreq, hmiss, hnd, _⟩ :=
          collectRequestedIds_ok_spec payload 0 [] requested hc
        by_cases hm : missingInstanceIds db requested ≠ []
        · rw [if_pos hm] at hres
          exact Except.noConfusion hres
        · rw [if_neg hm] at hres
          rw [not_not] at hm
          have hfound := found_of_no_missing db payload requested hreq hm
          cases hlu : bulk_list_update use_save model_fields now_value
              current_user db instances (payload.map validatedOf) with
          | error e =>
            rw [hlu] at hsucc
            exact Bool.noConfusion hsucc
          | ok db2 =>
            unfold bulk_list_update at hlu
            by_cases hcm : instances.length ≠ (payload.map validatedOf).length
            · rw [if_pos hcm] at hlu
              exact Except.noConfusion hlu
            · rw [if_neg hcm] at hlu
              by_cases hdf : (payload.map validatedOf).any (fun row =>
                  row.any (fun kv =>
                    contains_deferred_related_operation kv.2)) = true
              · rw [if_pos hdf] at hlu
                exact Except.noConfusion hlu
              · exact ⟨hne, hsize, hmiss, hnd, hfound,
                  Bool.not_eq_true _ ▸ hdf⟩

/-- Batch validity transfers along a permutation of the payload rows. -/
theorem validBatch_perm (bulk_batch_size : Nat) (db : List Inst)
    (payload payload2 : List RowData) (hp : payload.Perm payload2)
    (hv : validBatch bulk_batch_size db payload) :
    validBatch bulk_batch_size db payload2 := by
  obtain ⟨hne, hsize, hmiss, hnd, hfound, hdef⟩ := hv
  refine ⟨?_, ?_, ?_, ?_, ?_, ?_⟩
  · intro h2
    rw [h2] at hp
    exact hne (List.Perm.eq_nil hp)
  · rw [← hp.length_eq]
    exact hsize
  · intro item hitem
    exact hmiss item (hp.mem_iff.mpr hitem)
  · exact ((hp.map normalizedId).nodup_iff).mp hnd
  · intro item hitem
    exact hfound item (hp.mem_iff.mpr hitem)
  · rw [← any_perm (payload.map validatedOf) (payload2.map validatedOf)
      (hp.map validatedOf)]
    exact hdef

/-- With duplicate-free row ids the by-id-mapped state only depends on the
payload as a set of rows, not on row order. -/
theorem rowIdMappedState_perm (use_save : Bool) (model_fields : List String)
    (now_value : Value) (current_user : Option Value) (db : List Inst)
    (payload payload2 : List RowData) (hp : payload.Perm payload2)
    (hnd : (payload.map normalizedId).Nodup) :
    rowIdMappedState use_save model_fields now_value current_user db payload2
      = rowIdMappedState use_save model_fields now_value current_user db
          payload := by
  unfold rowIdMappedState
  apply List.map_congr_left
  intro r _
  rw [← find?_perm_of_unique payload payload2 hp _ ?huniq]
  case huniq =>
    intro a ha b hb hpa hpb
    simp only [beq_iff_eq] at hpa hpb
    exact List.inj_on_of_nodup_map hnd ha hb (by rw [hpa, hpb])

/-! ## Claim theorems -/

/-- C4: the relation classifier implements exactly the documented rules:
one-to-many and auto-created yields reverse_fk with the child link field
equal to the owning field name of the descriptor; many-to-many and
auto-created yields reverse_m2m; many-to-one or one-to-one yields fk;
forward many-to-many yields m2m; anything else yields generic; and an
explicit relation_kind override other than "auto" takes precedence over the
inferred kind. -/
theorem relation_classifier_rules :
    (∀ f : ModelFieldMeta, f.one_to_many = true → f.auto_created = true →
      infer_relation_kind f = ("reverse_fk", some f.owning_field_name)) ∧
    (∀ f : ModelFieldMeta, f.one_to_many = false → f.many_to_many = true →
      f.auto_created = true → infer_relation_kind f = ("reverse_m2m", none)) ∧
    (∀ f : ModelFieldMeta, ¬(f.one_to_many = true ∧ f.auto_created = true) →
      ¬(f.many_to_many = true ∧ f.auto_created = true) →
      (f.many_to_one = true ∨ f.one_to_one = true) →
      infer_relation_kind f = ("fk", none)) ∧
    (∀ f : ModelFieldMeta, f.auto_created = false → f.many_to_one = false →
      f.one_to_one = false → f.many_to_many = true →
      infer_relation_kind f = ("m2m", none)) ∧
    (∀ f : ModelFieldMeta, f.one_to_many = false → f.many_to_many = false →
      f.many_to_one = false → f.one_to_one = false →
      infer_relation_kind f = ("generic", none)) ∧
    (∀ (rw : RelationWriteOverrides) (mf : Option ModelFieldMeta),
      rw.relation_kind ≠ "auto" →
      (resolve_relation_write rw mf).relation_kind = rw.relation_kind) := by
  refine ⟨?_, ?_, ?_, ?_, ?_, ?_⟩
  · intro f h1 h2
    simp [infer_relation_kind, h1, h2]
  · intro f h1 h2 h3
    simp [infer_relation_kind, h1, h2, h3]
  · intro f h1 h2 h3
    simp only [infer_relation_kind]
    rw [if_neg h1, if_neg h2, if_pos h3]
  · intro f h1 h2 h3 h4
    simp [infer_relation_kind, h1, h2, h3, h4]
  · intro f h1 h2 h3 h4
    simp [infer_relation_kind, h1, h2, h3, h4]
  · intro rw mf h
    simp [resolve_relation_write, h]

/-- Witness for C4 at concrete descriptors and a concrete override. -/
theorem relation_classifier_rules_witness :
    infer_relation_kind
      { one_to_many := true, auto_created := true,
        owning_field_name := "parent" } = ("reverse_fk", some "parent") ∧
    (resolve_relation_write { relation_kind := "fk" }
      (some { many_to_many := true })).relation_kind = "fk" :=
  ⟨relation_classifier_rules.1 _ rfl rfl,
    relation_classifier_rules.2.2.2.2.2 _ _ (by decide)⟩

/-- C6: the slug handler ignores the configured `slug_lookup_field`.  With a
field configured with `slug_lookup_field = "title"` over a model that has a
`slug` attribute, the lookup for `"alpha"` queries the `slug` attribute and
reports `does_not_exist`, even though an accessible instance carries
`title = "alpha"`; conversely the string `"beta"` resolves through the
`slug` attribute that no configuration selected. -/
theorem slug_lookup_ignores_configured_field :
    handle_slug_input { intFields := ["pk", "id"], hasSlugAttr := true }
        [⟨1, [("title", .strV "alpha"), ("slug", .strV "beta")]⟩] "alpha"
      = .validationError (.does_not_exist (.strV "alpha")) ∧
    handle_slug_input { intFields := ["pk", "id"], hasSlugAttr := true }
        [⟨1, [("title", .strV "alpha"), ("slug", .strV "beta")]⟩] "beta"
      = .ok ⟨1, [("title", .strV "alpha"), ("slug", .strV "beta")]⟩ ∧
    instAttr ⟨1, [("title", .strV "alpha"), ("slug", .strV "beta")]⟩ "title"
      = some (.strV "alpha") := by
  refine ⟨?_, ?_, ?_⟩ <;> decide

/-- C7: when both slug and id input formats are accepted, a numeric-looking
string attempts the identifier lookup first and falls back to the slug
lookup, a non-numeric string attempts the slug lookup first and falls back
to the identifier lookup, and when both attempted lookups fail with
validation errors the surfaced error is the first attempted lookup's
error. -/
theorem string_id_or_slug_resolution_order
    (lookup_field : String) (mi : ModelInfo) (qs : List Inst) (data : String) :
    (∀ i, is_numeric_string data = true →
      handle_id_input lookup_field mi qs (.strV data) = .ok i →
      handle_string_id_or_slug_input lookup_field mi qs data = .ok i) ∧
    (∀ e1 i, is_numeric_string data = true →
      handle_id_input lookup_field mi qs (.strV data) = .validationError e1 →
      handle_slug_input mi qs data = .ok i →
      handle_string_id_or_slug_input lookup_field mi qs data = .ok i) ∧
    (∀ e1 e2, is_numeric_string data = true →
      handle_id_input lookup_field mi qs (.strV data) = .validationError e1 →
      handle_slug_input mi qs data = .validationError e2 →
      handle_string_id_or_slug_input lookup_field mi qs data
        = .validationError e1) ∧
    (∀ i, is_numeric_string data = false →
      handle_slug_input mi qs data = .ok i →
      handle_string_id_or_slug_input lookup_field mi qs data = .ok i) ∧
    (∀ e1 i, is_numeric_string data = false →
      handle_slug_input mi qs data = .validationError e1 →
      handle_id_input lookup_field mi qs (.strV data) = .ok i →
      handle_string_id_or_slug_input lookup_field mi qs data = .ok i) ∧
    (∀ e1 e2, is_numeric_string data = false →
      handle_slug_input mi qs data = .validationError e1 →
      handle_id_input lookup_field mi qs (.strV data) = .validationError e2 →
      handle_string_id_or_slug_input lookup_field mi qs data
        = .validationError e1) := by
  refine ⟨?_, ?_, ?_, ?_, ?_, ?_⟩
  · intro i hnum hid
    simp [handle_string_id_or_slug_input, hnum, hid]
  · intro e1 i hnum hid hslug
    simp [handle_string_id_or_slug_input, hnum, hid, hslug]
  · intro e1 e2 hnum hid hslug
    simp [handle_string_id_or_slug_input, hnum, hid, hslug]
  · intro i hnum hslug
    simp [handle_string_id_or_slug_input, hnum, hslug]
  · intro e1 i hnum hslug hid
    simp [handle_string_id_or_slug_input, hnum, hslug, hid]
  · intro e1 e2 hnum hslug hid
    simp [handle_string_id_or_slug_input, hnum, hslug, hid]

/-- Witness for C7: the non-numeric string "ghost" over an empty accessible
queryset fails the slug lookup (does_not_exist) and then the identifier
lookup (incorrect_type, since the pk column rejects a non-numeric string);
the surfaced error is the slug lookup's, the first attempted. -/
theorem string_id_or_slug_resolution_order_witness :
    handle_slug_input { intFields := ["pk", "id"], hasSlugAttr := true } []
        "ghost" = .validationError (.does_not_exist (.strV "ghost")) ∧
    handle_id_input "pk" { intFields := ["pk", "id"], hasSlugAttr := true } []
        (.strV "ghost") = .validationError (.incorrect_type "str") ∧
    handle_string_id_or_slug_input "pk"
        { intFields := ["pk", "id"], hasSlugAttr := true } [] "ghost"
      = .validationError (.does_not_exist (.strV "ghost")) :=
  ⟨by decide, by decide,
    (string_id_or_slug_resolution_order "pk"
        { intFields := ["pk", "id"], hasSlugAttr := true } [] "ghost").2.2.2.2.2
      (.does_not_exist (.strV "ghost")) (.incorrect_type "str")
      (by decide) (by decide) (by decide)⟩

/-- C5: for a reverse_fk field with sync_mode replace or sync, applying the
root-first relation write requires the child link field to be nullable: when
the bound child foreign key is absent or non-nullable the apply raises a
validation error, and when the nullability check passes the apply succeeds
and every previously-linked child row whose pk is not in the value set ends
with its link column set to null. -/
theorem reverse_fk_sync_requires_nullable_link
    (clf : Option String) (sync_mode : String) (bn : Option Bool)
    (parentPk : Nat) (value : List Nat) (st : RelState)
    (hclf : childLinkTruthy clf = true)
    (hsync : sync_mode = "replace" ∨ sync_mode = "sync") :
    (bn ≠ some true →
      isExceptError (apply_root_first_relation "reverse_fk" clf sync_mode bn
        parentPk value st) = true) ∧
    (bn = some true →
      isExceptError (apply_root_first_relation "reverse_fk" clf sync_mode bn
        parentPk value st) = false ∧
      ∀ c ∈ st.children, c.link = some parentPk → c.pk ∉ value →
        (⟨c.pk, none⟩ : Child) ∈
          (getExceptOk st (apply_root_first_relation "reverse_fk" clf
            sync_mode bn parentPk value st)).children) := by
  constructor
  · intro hbn
    simp [apply_root_first_relation, hclf, hsync, hbn, isExceptError]
  · intro hbn
    constructor
    · simp [apply_root_first_relation, hclf, hsync, hbn, isExceptError]
    · intro c hc hlink hnv
      have hres : getExceptOk st (apply_root_first_relation "reverse_fk" clf
          sync_mode bn parentPk value st)
          = { st with children := (st.children.map (fun c =>
              if c.pk ∈ value ∧ c.link ≠ some parentPk then
                { c with link := some parentPk }
              else c)).map (fun c =>
              if c.link = some parentPk ∧
                  c.pk ∉ value.filter (fun pk => pk ≠ 0) then
                { c with link := none }
              else c) } := by
        simp [apply_root_first_relation, hclf, hsync, hbn, getExceptOk]
      rw [hres]
      have h1 : (if c.pk ∈ value ∧ c.link ≠ some parentPk then
          { c with link := some parentPk } else c) = c := by
        rw [if_neg]
        intro hand
        exact hnv hand.1
      have h2 : c.pk ∉ value.filter (fun pk => pk ≠ 0) := by
        intro hmemf
        exact hnv (List.mem_of_mem_filter hmemf)
      have h3 : (if c.link = some parentPk ∧
          c.pk ∉ value.filter (fun pk => pk ≠ 0) then
          { c with link := none } else c) = (⟨c.pk, none⟩ : Child) := by
        rw [if_pos ⟨hlink, h2⟩]
      have hmem1 : c ∈ st.children.map (fun c =>
          if c.pk ∈ value ∧ c.link ≠ some parentPk then
            { c with link := some parentPk }
          else c) := List.mem_map.mpr ⟨c, hc, h1⟩
      exact List.mem_map.mpr ⟨c, hmem1, h3⟩

/-- Witness for C5: with child link field "parent", sync mode "sync", a
parent of pk 7, a previously-linked child of pk 1 and a value set
containing only pk 2: an absent bound field raises, a nullable bound field
succeeds and unlinks child 1. -/
theorem reverse_fk_sync_requires_nullable_link_witness :
    isExceptError (apply_root_first_relation "reverse_fk" (some "parent")
      "sync" none 7 [2]
      ⟨[⟨1, some 7⟩, ⟨2, none⟩], [], none⟩) = true ∧
    isExceptError (apply_root_first_relation "reverse_fk" (some "parent")
      "sync" (some true) 7 [2]
      ⟨[⟨1, some 7⟩, ⟨2, none⟩], [], none⟩) = false ∧
    (⟨1, none⟩ : Child) ∈
      (getExceptOk ⟨[⟨1, some 7⟩, ⟨2, none⟩], [], none⟩
        (apply_root_first_relation "reverse_fk" (some "parent") "sync"
          (some true) 7 [2]
          ⟨[⟨1, some 7⟩, ⟨2, none⟩], [], none⟩)).children := by
  refine ⟨?_, ?_, ?_⟩
  · exact (reverse_fk_sync_requires_nullable_link (some "parent") "sync" none
      7 [2] ⟨[⟨1, some 7⟩, ⟨2, none⟩], [], none⟩ (by decide)
      (Or.inr rfl)).1 (by decide)
  · exact ((reverse_fk_sync_requires_nullable_link (some "parent") "sync"
      (some true) 7 [2] ⟨[⟨1, some 7⟩, ⟨2, none⟩], [], none⟩ (by decide)
      (Or.inr rfl)).2 rfl).1
  · exact ((reverse_fk_sync_requires_nullable_link (some "parent") "sync"
      (some true) 7 [2] ⟨[⟨1, some 7⟩, ⟨2, none⟩], [], none⟩ (by decide)
      (Or.inr rfl)).2 rfl).2 ⟨1, some 7⟩ (by decide) rfl (by decide)

/-- C9: for an m2m or reverse_m2m field applied root-first with an empty
resolved value list, sync mode append leaves the state (in particular the
related set) completely unchanged, while replace or sync replaces the
related set with the empty set. -/
theorem m2m_root_first_empty_value_semantics
    (relation_kind : String) (clf : Option String) (sync_mode : String)
    (bn : Option Bool) (parentPk : Nat) (st : RelState)
    (hkind : relation_kind = "reverse_m2m" ∨ relation_kind = "m2m") :
    (sync_mode = "append" →
      apply_root_first_relation relation_kind clf sync_mode bn parentPk [] st
        = .ok st) ∧
    (sync_mode = "replace" ∨ sync_mode = "sync" →
      apply_root_first_relation relation_kind clf sync_mode bn parentPk [] st
        = .ok { st with m2m := [] }) := by
  rcases hkind with h | h <;> subst h <;> constructor <;> intro hsync
  · subst hsync
    simp [apply_root_first_relation]
  · rcases hsync with h | h <;> subst h <;> simp [apply_root_first_relation]
  · subst hsync
    simp [apply_root_first_relation]
  · rcases hsync with h | h <;> subst h <;> simp [apply_root_first_relation]

/-- Witness for C9: a related set {3, 4} with an empty value list is kept by
append and emptied by replace. -/
theorem m2m_root_first_empty_value_semantics_witness :
    apply_root_first_relation "m2m" none "append" none 7 []
      ⟨[], [3, 4], none⟩ = .ok ⟨[], [3, 4], none⟩ ∧
    apply_root_first_relation "reverse_m2m" none "replace" none 7 []
      ⟨[], [3, 4], none⟩ = .ok ⟨[], [], none⟩ :=
  ⟨(m2m_root_first_empty_value_semantics "m2m" none "append" none 7
      ⟨[], [3, 4], none⟩ (Or.inr rfl)).1 rfl,
    (m2m_root_first_empty_value_semantics "reverse_m2m" none "replace" none 7
      ⟨[], [3, 4], none⟩ (Or.inl rfl)).2 (Or.inl rfl)⟩

/-- The create path of a nested serializer save appends exactly the saved
row to storage. -/
theorem saveNested_create (op : DeferredRelatedOperation) (db : List Inst)
    (extra : RowData) (h : op.boundInstance = none) :
    (saveNested op db extra).2 = db ++ [(saveNested op db extra).1] := by
  unfold saveNested
  rw [h]

/-- C3: validating nested relation input never persists a child.  A
successful `_handle_nested_input` returns a deferred operation wrapping the
validated (unsaved) child serializer state; when the parent validation
fails the deferred operation is discarded with storage unchanged; and the
child reaches storage exactly when the deferred operation is resolved
during the parent save (create path: storage becomes the old storage plus
the one saved row). -/
theorem nested_input_never_persists (mi : ModelInfo)
    (create_if_nested update_if_exists : Bool) (lookup_field : String)
    (validate : Option Inst → RowData → Except (List String) RowData)
    (relation_kind : String) (child_link_field : Option String)
    (parentPk : Option Nat) (db : List Inst) (data : RowData) :
    (∀ op, handle_nested_input mi create_if_nested update_if_exists
        lookup_field validate db data = .ok op →
      validate op.boundInstance data = .ok op.validated) ∧
    (nested_parent_flow mi create_if_nested update_if_exists lookup_field
        validate relation_kind child_link_field parentPk false db data).2
      = db ∧
    (∀ op i db2, handle_nested_input mi create_if_nested update_if_exists
        lookup_field validate db data = .ok op →
      op.boundInstance = none →
      nested_parent_flow mi create_if_nested update_if_exists lookup_field
        validate relation_kind child_link_field parentPk true db data
        = (.ok i, db2) →
      db2 = db ++ [i]) := by
  refine ⟨?_, ?_, ?_⟩
  · intro op h
    unfold handle_nested_input at h
    split at h
    · exact PyOutcome.noConfusion h
    · split at h
      · exact PyOutcome.noConfusion h
      · split at h
        · exact PyOutcome.noConfusion h
        · rename_i instOpt validated heq
          cases h
          exact heq
  · cases hh : handle_nested_input mi create_if_nested update_if_exists
        lookup_field validate db data <;>
      simp [nested_parent_flow, hh]
  · intro op i db2 hop hbound hflow
    unfold nested_parent_flow at hflow
    rw [hop] at hflow
    simp only [if_true] at hflow
    cases hs : save_deferred_serializer relation_kind child_link_field
        parentPk op db with
    | error e =>
      rw [hs] at hflow
      exact PyOutcome.noConfusion (congrArg Prod.fst hflow)
    | ok p =>
      obtain ⟨i1, db21⟩ := p
      rw [hs] at hflow
      have hi : i1 = i := PyOutcome.ok.inj
        (show PyOutcome.ok i1 = PyOutcome.ok i from congrArg Prod.fst hflow)
      have hdb : db21 = db2 := congrArg Prod.snd hflow
      unfold save_deferred_serializer at hs
      split at hs
      · split at hs
        · exact Except.noConfusion hs
        · have hp := Except.ok.inj hs
          have hsn := saveNested_create op db
            [(child_link_field.getD "", .intV (parentPk.getD 0))] hbound
          rw [hp] at hsn
          rw [← hdb, ← hi]
          exact hsn
      · have hp := Except.ok.inj hs
        have hsn := saveNested_create op db [] hbound
        rw [hp] at hsn
        rw [← hdb, ← hi]
        exact hsn

/-- Witness for C3: a passthrough child serializer over payload
`{name: "x"}` with an empty store — validation succeeds without touching
the store, a failed parent discards the deferred child, and a successful
parent save inserts exactly the one child row. -/
theorem nested_input_never_persists_witness :
    validate0 none [("name", Value.strV "x")]
      = .ok [("name", Value.strV "x")] ∧
    (nested_parent_flow { intFields := ["pk", "id"], hasSlugAttr := false }
        true false "pk" validate0 "fk" none none false []
        [("name", Value.strV "x")]).2 = [] ∧
    ([⟨1, [("name", Value.strV "x")]⟩] : List Inst)
      = [] ++ [⟨1, [("name", Value.strV "x")]⟩] := by
  have h := nested_input_never_persists
    { intFields := ["pk", "id"], hasSlugAttr := false } true false "pk"
    validate0 "fk" none none [] [("name", Value.strV "x")]
  refine ⟨?_, h.2.1, ?_⟩
  · exact h.1 ⟨none, [("name", Value.strV "x")]⟩ rfl
  · exact h.2.2 ⟨none, [("name", Value.strV "x")]⟩
      ⟨1, [("name", Value.strV "x")]⟩ [⟨1, [("name", Value.strV "x")]⟩]
      rfl rfl rfl

/-- C8: the count reported by bulk delete equals the number of directly
deleted target-model rows only; cascade-deleted dependent rows of other
models (labels different from the target label) never contribute to it. -/
theorem bulk_delete_count_direct_rows_only
    (bulk_batch_size : Nat) (st : DeleteStore) (ids : List Value)
    (hids : ids ≠ []) (hsize : ids.length ≤ bulk_batch_size)
    (hdeps : ∀ d ∈ st.deps, d.label ≠ st.targetLabel) :
    (bulk_delete bulk_batch_size st ids).1.count
      = (foundIdsOf st ids).length := by
  have hn : ¬(ids = [] ∨ bulk_batch_size < ids.length) := by
    rintro (h | h)
    · exact hids h
    · exact absurd hsize (not_le.mpr h)
  have hfil : st.deps.filter (fun d =>
      (foundIdsOf st ids).contains d.parent && d.label == st.targetLabel)
      = [] := by
    rw [List.filter_eq_nil_iff]
    intro d hd
    simp only [Bool.and_eq_true, beq_iff_eq, not_and]
    intro _ h2
    exact hdeps d hd h2
  unfold bulk_delete
  rw [if_neg hn]
  rcases hl : foundIdsOf st ids with _ | ⟨a, as⟩
  · simp [hl]
  · rw [hl] at hfil
    simp [hl, deleteDetails, hfil]
    intro d hd _
    exact hdeps d hd

/-- Witness for C8: deleting target rows 1 and 2 also cascades three
join-table rows of another model, and the reported count is 2, not 5. -/
theorem bulk_delete_count_direct_rows_only_witness :
    (bulk_delete 100
      ⟨[1, 2, 9], [⟨"app.Join", 1⟩, ⟨"app.Join", 1⟩, ⟨"app.Join", 2⟩],
        "app.Target"⟩
      [Value.intV 1, Value.intV 2]).1.count = 2 :=
  (bulk_delete_count_direct_rows_only 100
    ⟨[1, 2, 9], [⟨"app.Join", 1⟩, ⟨"app.Join", 1⟩, ⟨"app.Join", 2⟩],
      "app.Target"⟩
    [Value.intV 1, Value.intV 2] (by decide) (by decide) (by decide)).trans
    (by decide)

/-- C10: bulk delete is not all-or-nothing over missing ids: a batch that
passes list/size validation and mixes found and missing ids succeeds, every
found target row is deleted, and the response reports the missing ids,
their count, the requested count and the deleted count. -/
theorem bulk_delete_partial_missing_ids
    (bulk_batch_size : Nat) (st : DeleteStore) (ids : List Value)
    (hids : ids ≠ []) (hsize : ids.length ≤ bulk_batch_size)
    (hfound : foundIdsOf st ids ≠ [])
    (_hmissing : missingIdsOf ids (foundIdsOf st ids) ≠ []) :
    (bulk_delete bulk_batch_size st ids).1.success = true ∧
    (bulk_delete bulk_batch_size st ids).2.target
      = st.target.filter (fun p => !(foundIdsOf st ids).contains p) ∧
    (bulk_delete bulk_batch_size st ids).1.missing_ids
      = missingIdsOf ids (foundIdsOf st ids) ∧
    (bulk_delete bulk_batch_size st ids).1.missing_count
      = (missingIdsOf ids (foundIdsOf st ids)).length ∧
    (bulk_delete bulk_batch_size st ids).1.requested_count = ids.length ∧
    (bulk_delete bulk_batch_size st ids).1.count
      = deleteDetails st (foundIdsOf st ids) st.targetLabel := by
  have hn : ¬(ids = [] ∨ bulk_batch_size < ids.length) := by
    rintro (h | h)
    · exact hids h
    · exact absurd hsize (not_le.mpr h)
  unfold bulk_delete
  rw [if_neg hn]
  rcases hl : foundIdsOf st ids with _ | ⟨a, as⟩
  · exact absurd hl hfound
  · simp [hl]

/-- Witness for C10: requesting ids {2, 5} against accessible rows {1, 2}
succeeds, deletes row 2, and reports missing id "5" with count 1. -/
theorem bulk_delete_partial_missing_ids_witness :
    (bulk_delete 100 ⟨[1, 2], [], "app.Target"⟩
      [Value.intV 2, Value.intV 5]).1.success = true ∧
    (bulk_delete 100 ⟨[1, 2], [], "app.Target"⟩
      [Value.intV 2, Value.intV 5]).2.target = [1] ∧
    (bulk_delete 100 ⟨[1, 2], [], "app.Target"⟩
      [Value.intV 2, Value.intV 5]).1.missing_ids = ["5"] ∧
    (bulk_delete 100 ⟨[1, 2], [], "app.Target"⟩
      [Value.intV 2, Value.intV 5]).1.missing_count = 1 ∧
    (bulk_delete 100 ⟨[1, 2], [], "app.Target"⟩
      [Value.intV 2, Value.intV 5]).1.count = 1 := by
  have h := bulk_delete_partial_missing_ids 100 ⟨[1, 2], [], "app.Target"⟩
    [Value.intV 2, Value.intV 5] (by decide) (by decide) (by decide)
    (by decide)
  exact ⟨h.1, h.2.1.trans (by decide), h.2.2.1.trans (by decide),
    h.2.2.2.1.trans (by decide), h.2.2.2.2.2.trans (by decide)⟩

/-- C1: bulk update is all-or-nothing on the id contract.  A batch with a
missing/null/empty row id, a duplicate id, or an id that resolves to no
accessible instance is rejected as a whole: the endpoint reports failure
and storage is exactly what it was. -/
theorem bulk_update_all_or_nothing (bulk_batch_size : Nat) (use_save : Bool)
    (model_fields : List String) (now_value : Value)
    (current_user : Option Value) (db : List Inst) (payload : List RowData)
    (hviol : hasIdContractViolation db payload) :
    bulk_update_endpoint bulk_batch_size use_save model_fields now_value
      current_user db payload = (db, false) := by
  unfold bulk_update_endpoint
  by_cases hguard : payload = [] ∨ bulk_batch_size < payload.length
  · rw [if_pos hguard]
  · rw [if_neg hguard]
    push_neg at hguard
    obtain ⟨hne, _⟩ := hguard
    cases hres : resolve_bulk_update_instances db payload with
    | error e => rfl
    | ok instances =>
      exfalso
      unfold resolve_bulk_update_instances at hres
      rw [if_neg hne] at hres
      cases hc : collectRequestedIds 0 payload [] with
      | error e =>
        rw [hc] at hres
        exact Except.noConfusion hres
      | ok requested =>
        simp only [hc] at hres
        obtain ⟨hreq, hmiss, hnd, _⟩ :=
          collectRequestedIds_ok_spec payload 0 [] requested hc
        by_cases hm : missingInstanceIds db requested ≠ []
        · rw [if_pos hm] at hres
          exact Except.noConfusion hres
        · rw [not_not] at hm
          rcases hviol with ⟨item, hitem, hmiss2⟩ | hnd2 | ⟨item, hitem, hnores⟩
          · rw [hmiss item hitem] at hmiss2
            exact Bool.noConfusion hmiss2
          · exact hnd2 hnd
          · obtain ⟨r, hrdb, hstr⟩ :=
              found_of_no_missing db payload requested hreq hm item hitem
            exact hnores r hrdb hstr

/-- Witness for C1: a batch repeating id 1 violates the id contract and is
rejected with the single stored row unchanged. -/
theorem bulk_update_all_or_nothing_witness :
    hasIdContractViolation [⟨1, [("email", Value.strV "old")]⟩]
      [[("id", Value.intV 1), ("email", Value.strV "x")],
        [("id", Value.intV 1), ("email", Value.strV "y")]] ∧
    bulk_update_endpoint 100 false ["email"] Value.nullV none
      [⟨1, [("email", Value.strV "old")]⟩]
      [[("id", Value.intV 1), ("email", Value.strV "x")],
        [("id", Value.intV 1), ("email", Value.strV "y")]]
      = ([⟨1, [("email", Value.strV "old")]⟩], false) :=
  ⟨by unfold hasIdContractViolation; decide,
    bulk_update_all_or_nothing 100 false ["email"] Value.nullV none
      [⟨1, [("email", Value.strV "old")]⟩]
      [[("id", Value.intV 1), ("email", Value.strV "x")],
        [("id", Value.intV 1), ("email", Value.strV "y")]]
      (by unfold hasIdContractViolation; decide)⟩

/-- C2: bulk update maps rows to instances by id, not by position.  On any
accepted batch over storage with duplicate-free pk strings, the final
storage is the by-id-mapped state — every stored row addressed by a payload
row id carries exactly that row's field values — and permuting the payload
rows changes nothing about the outcome. -/
theorem bulk_update_maps_rows_by_id (bulk_batch_size : Nat) (use_save : Bool)
    (model_fields : List String) (now_value : Value)
    (current_user : Option Value) (db : List Inst) (payload : List RowData)
    (hdbs : (db.map (fun r => toString r.pk)).Nodup)
    (hsucc : (bulk_update_endpoint bulk_batch_size use_save model_fields
      now_value current_user db payload).2 = true) :
    (bulk_update_endpoint bulk_batch_size use_save model_fields now_value
      current_user db payload).1
      = rowIdMappedState use_save model_fields now_value current_user db
          payload ∧
    (∀ payload2, payload.Perm payload2 →
      bulk_update_endpoint bulk_batch_size use_save model_fields now_value
        current_user db payload2
        = bulk_update_endpoint bulk_batch_size use_save model_fields
            now_value current_user db payload) := by
  have hv := validBatch_of_success bulk_batch_size use_save model_fields
    now_value current_user db payload hsucc
  have hmain := bulk_update_endpoint_of_validBatch bulk_batch_size use_save
    model_fields now_value current_user db payload hdbs hv
  have hv2 := hv
  obtain ⟨_, _, _, hnd, _, _⟩ := hv2
  constructor
  · rw [hmain]
  · intro payload2 hp
    rw [bulk_update_endpoint_of_validBatch bulk_batch_size use_save
        model_fields now_value current_user db payload2 hdbs
        (validBatch_perm bulk_batch_size db payload payload2 hp hv),
      hmain,
      rowIdMappedState_perm use_save model_fields now_value current_user db
        payload payload2 hp hnd]

/-- Witness for C2: the spec scenario — rows for ids 2 and 1 in reverse
order end on the right instances (emails not swapped), and the reversed
payload yields the identical outcome. -/
theorem bulk_update_maps_rows_by_id_witness :
    (bulk_update_endpoint 100 false ["email"] Value.nullV none
      [⟨1, [("email", Value.strV "old_a")]⟩,
        ⟨2, [("email", Value.strV "old_b")]⟩]
      [[("id", Value.intV 2), ("email", Value.strV "b@x.com")],
        [("id", Value.intV 1), ("email", Value.strV "a@x.com")]]).1
      = [⟨1, [("email", Value.strV "a@x.com")]⟩,
          ⟨2, [("email", Value.strV "b@x.com")]⟩] ∧
    bulk_update_endpoint 100 false ["email"] Value.nullV none
      [⟨1, [("email", Value.strV "old_a")]⟩,
        ⟨2, [("email", Value.strV "old_b")]⟩]
      [[("id", Value.intV 1), ("email", Value.strV "a@x.com")],
        [("id", Value.intV 2), ("email", Value.strV "b@x.com")]]
      = bulk_update_endpoint 100 false ["email"] Value.nullV none
          [⟨1, [("email", Value.strV "old_a")]⟩,
            ⟨2, [("email", Value.strV "old_b")]⟩]
          [[("id", Value.intV 2), ("email", Value.strV "b@x.com")],
            [("id", Value.intV 1), ("email", Value.strV "a@x.com")]] := by
  have h := bulk_update_maps_rows_by_id 100 false ["email"] Value.nullV none
    [⟨1, [("email", Value.strV "old_a")]⟩,
      ⟨2, [("email", Value.strV "old_b")]⟩]
    [[("id", Value.intV 2), ("email", Value.strV "b@x.com")],
      [("id", Value.intV 1), ("email", Value.strV "a@x.com")]]
    (by decide) (by decide)
  exact ⟨h.1.trans (by decide),
    h.2 [[("id", Value.intV 1), ("email", Value.strV "a@x.com")],
      [("id", Value.intV 2), ("email", Value.strV "b@x.com")]] (by decide)⟩

end DrfCommons
